import Mathlib

/-!
Verification of the RLC circuit simulator's numerical engine.

Shallow embedding of the simulation core:
* `simulation/numericalSolver.js` (`solveODE`, fixed-step RK4),
* `simulation/stateSpaceModels.js` (`getVin`, the per-topology ODE
  functions, the model registry `models`, `calculateMetrics`'s
  settling-time scan),
* the solver router file (`generateFrequencyVector`,
  `solveFrequencyResponse`, `calculatePolesAndStability`, `solve`),
* `circuitDefinitions.js` (the static topology table).

JavaScript numbers are modelled as real numbers; the NaN/Infinity
values a JS number can additionally take are modelled separately
(`JSVal`) where the code inspects them (parameter validation).  JS
array indexing `a[i]` is modelled by `nth`, which returns a default
outside the array; inside the engine every access is in bounds.
Display-string rendering (`toFixed`-based `analysis` and `tfString`
fields) is floating-point formatting and is left out of the embedding.
-/

noncomputable section

/-- JS array read `l[i]` with out-of-range default (JS would give
`undefined`; the engine never reads out of range on its happy path). -/
def nthD {α : Type} (l : List α) (i : ℕ) (d : α) : α := (l[i]?).getD d

/-- JS numeric array read, defaulting to 0 out of range. -/
def nth (l : List ℝ) (i : ℕ) : ℝ := nthD l i 0

/-- A JS number as stored in the parameter object: an ordinary (finite)
number, NaN, or a signed infinity. -/
inductive JSVal where
  | num (x : ℝ)
  | nan
  | inf
  | ninf
deriving DecidableEq

/-- JS `isNaN` on a number: true exactly for NaN.  In particular
`isNaN(Infinity)` is `false`. -/
def jsIsNaN : JSVal → Bool
  | .nan => true
  | _ => false

/-- JS `isFinite` on a number: false for NaN and both infinities. -/
def jsIsFinite : JSVal → Bool
  | .num _ => true
  | _ => false

/-- JS `String.prototype.includes` (substring test). -/
def jsIncludes (s sub : String) : Bool := decide (sub.toList <:+: s.toList)

/-- The parameter record handed to the numeric layer: every parameter
name that any topology uses, in base units, plus the input-waveform tag
(`params.inputType`).  This is the real-valued reading of the JS params
object; non-finite entries are outside this reading and are treated at
the validation layer via `JSVal`. -/
structure Params where
  R : ℝ := 0
  L : ℝ := 0
  C : ℝ := 0
  L1 : ℝ := 0
  L2 : ℝ := 0
  C1 : ℝ := 0
  C2 : ℝ := 0
  V : ℝ := 0
  V0 : ℝ := 0
  I0 : ℝ := 0
  Freq : ℝ := 0
  tEnd : ℝ := 0
  inputType : String := ""

/-- `getVin` from stateSpaceModels.js: the excitation at time `t`.
Step holds `V`; Sine is `V·sin(2π·Freq·t)`; Ramp reinterprets `V` as a
slope; unknown tags give 0. -/
def getVin (t : ℝ) (p : Params) : ℝ :=
  if p.inputType = "Step" then (if t ≥ 0 then p.V else 0)
  else if p.inputType = "Sine" then (if t ≥ 0 then p.V * Real.sin (2 * Real.pi * p.Freq * t) else 0)
  else if p.inputType = "Ramp" then (if t ≥ 0 then p.V * t else 0)
  else 0

/-- `rcOde`: state `[Vc]`, `dVc/dt = (Vin - Vc) / (R·C)`. -/
def rcOde (t : ℝ) (state : List ℝ) (p : Params) : List ℝ :=
  [(getVin t p - nth state 0) / (p.R * p.C)]

/-- `rlOde`: state `[iL]`, `diL/dt = (Vin - iL·R) / L`. -/
def rlOde (t : ℝ) (state : List ℝ) (p : Params) : List ℝ :=
  [(getVin t p - nth state 0 * p.R) / p.L]

/-- `rlcOde`: state `[Vc, iL]`, `dVc/dt = iL / C`,
`diL/dt = (Vin - Vc - iL·R) / L`. -/
def rlcOde (t : ℝ) (state : List ℝ) (p : Params) : List ℝ :=
  [nth state 1 / p.C, (getVin t p - nth state 0 - nth state 1 * p.R) / p.L]

/-- `rllcOde`: delegates to `rlcOde` with `L` replaced by `L1 + L2`
(series inductances), exactly as in the source. -/
def rllcOde (t : ℝ) (state : List ℝ) (p : Params) : List ℝ :=
  rlcOde t state { p with L := p.L1 + p.L2 }

/-- `rlccOde`: a genuine 3-state model, state `[iL, Vc1, Vc2]` with
`diL/dt = (Vin - Vc1 - Vc2 - iL·R)/L`, `dVc1/dt = iL/C1`,
`dVc2/dt = iL/C2`. -/
def rlccOde (t : ℝ) (state : List ℝ) (p : Params) : List ℝ :=
  [(getVin t p - nth state 1 - nth state 2 - nth state 0 * p.R) / p.L,
   nth state 0 / p.C1,
   nth state 0 / p.C2]

/-- `rlcParallelOde`: state `[Vc, iL]`; the excitation is read as a
current `I_in`; `dVc/dt = (I_in - Vc/R - iL)/C`, `diL/dt = Vc/L`. -/
def rlcParallelOde (t : ℝ) (state : List ℝ) (p : Params) : List ℝ :=
  [(getVin t p - nth state 0 / p.R - nth state 1) / p.C,
   nth state 0 / p.L]

/-- The solver's vector helper `add(a, b, scale) = a.map((val, i) => val
+ b[i]*scale)`. -/
def addScaled (a b : List ℝ) (scale : ℝ) : List ℝ :=
  a.mapIdx (fun i val => val + nth b i * scale)

/-- One RK4 step of `solveODE`: the four stage derivatives and the
`h/6·(k1+2k2+2k3+k4)` update, exactly as in numericalSolver.js. -/
def rk4Step {P : Type} (f : ℝ → List ℝ → P → List ℝ) (p : P) (dt t : ℝ)
    (s : List ℝ) : List ℝ :=
  let k1 := f t s p
  let k2 := f (t + 0.5 * dt) (addScaled s k1 (0.5 * dt)) p
  let k3 := f (t + 0.5 * dt) (addScaled s k2 (0.5 * dt)) p
  let k4 := f (t + dt) (addScaled s k3 dt) p
  s.mapIdx (fun j val =>
    val + (dt / 6) * (nth k1 j + 2 * nth k2 j + 2 * nth k3 j + nth k4 j))

/-- One trip of the `for` loop in `solveODE`: advance the accumulated
time by `dt` and the state by one RK4 step taken at the pre-increment
time. -/
def odeStep {P : Type} (f : ℝ → List ℝ → P → List ℝ) (p : P) (dt : ℝ)
    (ts : ℝ × List ℝ) : ℝ × List ℝ :=
  (ts.1 + dt, rk4Step f p dt ts.1 ts.2)

/-- `i` trips of the `solveODE` loop from the initial `(tStart, init)`. -/
def odeIter {P : Type} (f : ℝ → List ℝ → P → List ℝ) (p : P) (dt : ℝ)
    (start : ℝ × List ℝ) : ℕ → ℝ × List ℝ
  | 0 => start
  | i + 1 => odeStep f p dt (odeIter f p dt start i)

/-- The `{ time, states }` record produced by `solveODE` (the source
additionally exposes the transposed `y0, y1, ...` views, modelled by
`ODEResult.y`). -/
structure ODEResult where
  time : List ℝ
  states : List (List ℝ)

/-- The transposed state view `results.yj = states.map(s => s[j])`. -/
def ODEResult.y (r : ODEResult) (j : ℕ) : List ℝ :=
  r.states.map (fun s => nth s j)

/-- `solveODE` from numericalSolver.js: fixed-step RK4 with
`dt = (tEnd - tStart)/(points - 1)`; sample `i` holds the accumulated
time and state after `i` loop trips (sample 0 is `(tStart, init)`).
The source defaults `points` to 1000; callers here pass it explicitly. -/
def solveODE {P : Type} (f : ℝ → List ℝ → P → List ℝ) (init : List ℝ)
    (p : P) (tStart tEnd : ℝ) (points : ℕ) : ODEResult :=
  let dt := (tEnd - tStart) / ((points : ℝ) - 1)
  { time := (List.range points).map (fun i => (odeIter f p dt (tStart, init) i).1),
    states := (List.range points).map (fun i => (odeIter f p dt (tStart, init) i).2) }

/-- `Math.log10`, i.e. the base-10 logarithm. -/
def log10 (x : ℝ) : ℝ := Real.logb 10 x

/-- `generateFrequencyVector`: log-uniform samples
`10^(log10 fMin + i·logStep)` with
`logStep = (log10 fMax - log10 fMin)/(points - 1)`.  The source
defaults are `fMin = 1`, `fMax = 1e6`, `points = 500`. -/
def generateFrequencyVector (fMin fMax : ℝ) (points : ℕ) : List ℝ :=
  (List.range points).map (fun (i : ℕ) =>
    (10 : ℝ) ^ (log10 fMin + (i : ℝ) * ((log10 fMax - log10 fMin) / ((points : ℝ) - 1))))

/-- Complex addition helper `cAdd` on (re, im) pairs. -/
def cAdd (a b : ℝ × ℝ) : ℝ × ℝ := (a.1 + b.1, a.2 + b.2)

/-- Complex division helper `cDiv` via conjugate multiplication, with
the source's explicit zero-denominator guard returning (0, 0). -/
def cDiv (a b : ℝ × ℝ) : ℝ × ℝ :=
  if b.1 * b.1 + b.2 * b.2 = 0 then (0, 0)
  else ((a.1 * b.1 + a.2 * b.2) / (b.1 * b.1 + b.2 * b.2),
        (a.2 * b.1 - a.1 * b.2) / (b.1 * b.1 + b.2 * b.2))

/-- Complex magnitude helper `cMag`. -/
def cMag (a : ℝ × ℝ) : ℝ := Real.sqrt (a.1 ^ 2 + a.2 ^ 2)

/-- `Math.atan2` (signed zeros aside, which the real numbers do not
distinguish). -/
def jsAtan2 (y x : ℝ) : ℝ :=
  if 0 < x then Real.arctan (y / x)
  else if x < 0 then
    (if 0 ≤ y then Real.arctan (y / x) + Real.pi else Real.arctan (y / x) - Real.pi)
  else if 0 < y then Real.pi / 2
  else if y < 0 then -(Real.pi / 2)
  else 0

/-- Complex phase helper `cPhase = atan2(im, re)`. -/
def cPhase (a : ℝ × ℝ) : ℝ := jsAtan2 a.2 a.1

/-- Magnitude in dB of a transfer-function value, `20·log10 |H|`. -/
def magDb (H : ℝ × ℝ) : ℝ := 20 * log10 (cMag H)

/-- Phase in degrees of a transfer-function value. -/
def phaseDeg (H : ℝ × ℝ) : ℝ := cPhase H * 180 / Real.pi

/-- A static entry of `circuitDefinitions` (the fields the solver router
reads; display-only fields are omitted). -/
structure Circuit where
  id : String
  order : ℕ
  params : List String
  solver : String
  transferFunction : String

/-- The `{ freq, mag, phase, status }` record of
`solveFrequencyResponse`. -/
structure FreqResult where
  freq : List ℝ
  mag : List ℝ
  phase : List ℝ
  status : String

/-- `solveFrequencyResponse`: evaluate the topology's closed-form
`H(jω)` over the default 500-point sweep; the six recognised
transfer-function tags each have a hard-coded branch, and any other tag
falls through to the all-zero sweep (the source logs a warning there).
Real arithmetic raises no exception, so the catch branch is
unreachable and the status is always complete. -/
def solveFrequencyResponse (circuit : Circuit) (p : Params) : FreqResult :=
  let freq := generateFrequencyVector 1 1e6 500
  let omega := freq.map (fun f => 2 * Real.pi * f)
  if circuit.transferFunction = "1 / (1 + sRC)" then
    { freq := freq,
      mag := omega.map (fun w => magDb (cDiv (1, 0) (1, w * p.R * p.C))),
      phase := omega.map (fun w => phaseDeg (cDiv (1, 0) (1, w * p.R * p.C))),
      status := "complete" }
  else if circuit.transferFunction = "R / (R + sL)" then
    { freq := freq,
      mag := omega.map (fun w => magDb (cDiv (p.R, 0) (p.R, w * p.L))),
      phase := omega.map (fun w => phaseDeg (cDiv (p.R, 0) (p.R, w * p.L))),
      status := "complete" }
  else if circuit.transferFunction = "(sRC) / (s^2LC + sRC + 1)" then
    { freq := freq,
      mag := omega.map (fun w =>
        magDb (cDiv (0, w * p.R * p.C)
          (cAdd (cAdd (-1 * w ^ 2 * p.L * p.C, 0) (0, w * p.R * p.C)) (1, 0)))),
      phase := omega.map (fun w =>
        phaseDeg (cDiv (0, w * p.R * p.C)
          (cAdd (cAdd (-1 * w ^ 2 * p.L * p.C, 0) (0, w * p.R * p.C)) (1, 0)))),
      status := "complete" }
  else if circuit.transferFunction = "sL / (s^2LC + sL/R + 1)" then
    { freq := freq,
      mag := omega.map (fun w =>
        magDb (cDiv (0, w * p.L) (1 - w ^ 2 * p.L * p.C, w * p.L / p.R))),
      phase := omega.map (fun w =>
        phaseDeg (cDiv (0, w * p.L) (1 - w ^ 2 * p.L * p.C, w * p.L / p.R))),
      status := "complete" }
  else if circuit.transferFunction = "1 / (s^2*C*(L1+L2) + s*C*R + 1)" then
    { freq := freq,
      mag := omega.map (fun w =>
        magDb (cDiv (1, 0) (1 - w ^ 2 * (p.L1 + p.L2) * p.C, w * p.R * p.C))),
      phase := omega.map (fun w =>
        phaseDeg (cDiv (1, 0) (1 - w ^ 2 * (p.L1 + p.L2) * p.C, w * p.R * p.C))),
      status := "complete" }
  else if circuit.transferFunction = "1 / (s^2*L*C_eq + s*R*C_eq + 1)" then
    { freq := freq,
      mag := omega.map (fun w =>
        magDb (cDiv (1, 0)
          (1 - w ^ 2 * p.L * (p.C1 * p.C2 / (p.C1 + p.C2)),
           w * p.R * (p.C1 * p.C2 / (p.C1 + p.C2))))),
      phase := omega.map (fun w =>
        phaseDeg (cDiv (1, 0)
          (1 - w ^ 2 * p.L * (p.C1 * p.C2 / (p.C1 + p.C2)),
           w * p.R * (p.C1 * p.C2 / (p.C1 + p.C2))))),
      status := "complete" }
  else
    { freq := freq,
      mag := List.replicate freq.length 0,
      phase := List.replicate freq.length 0,
      status := "complete" }

/-- A pole (or zero) as the source's `{ re, im }` object. -/
structure Pole where
  re : ℝ
  im : ℝ

/-- The source's `{ status, details }` stability record. -/
structure StabilityStatus where
  status : String
  details : String

/-- Roots of `s² + b·s + c = 0` exactly as computed in
`calculatePolesAndStability`: two real roots when the discriminant
`b² - 4c` is non-negative, otherwise a conjugate pair. -/
def quadRoots (b c : ℝ) : List Pole :=
  if b * b - 4 * c ≥ 0 then
    [⟨(-b + Real.sqrt (b * b - 4 * c)) / 2, 0⟩,
     ⟨(-b - Real.sqrt (b * b - 4 * c)) / 2, 0⟩]
  else
    [⟨-b / 2, Real.sqrt (-(b * b - 4 * c)) / 2⟩,
     ⟨-b / 2, -(Real.sqrt (-(b * b - 4 * c)) / 2)⟩]

/-- The stability classification block of `calculatePolesAndStability`,
tolerance 1e-9: any pole with `re > tol` is unstable; otherwise poles
with `|re| ≤ tol` are collected and, if at least two exist whose
imaginary parts match in magnitude (difference or sum below tol), the
system is unstable by repeated imaginary-axis poles; a single axis pole
is marginally stable; no axis pole leaves the stable default. -/
def assessStability (roots : List Pole) : StabilityStatus :=
  if roots.any (fun q => decide (q.re > 1e-9)) then
    ⟨"Unstable", "At least one pole with Re(p) > 0."⟩
  else
    match roots.filter (fun q => decide (|q.re| ≤ 1e-9)) with
    | [] => ⟨"Stable", "All poles Re(p) < 0."⟩
    | [_] => ⟨"Marginally Stable", "Simple poles on imaginary axis (oscillatory)."⟩
    | q0 :: q1 :: _ =>
      if |q0.im - q1.im| < 1e-9 ∨ |q0.im + q1.im| < 1e-9 then
        ⟨"Unstable", "Repeated poles on imaginary axis."⟩
      else ⟨"Marginally Stable", "Simple poles on imaginary axis (oscillatory)."⟩

/-- The `{ poles, stabilityStatus }` result of
`calculatePolesAndStability`. -/
structure PZResult where
  poles : List Pole
  stability : StabilityStatus

/-- `calculatePolesAndStability`: guard non-positive `L`/`C` (the JS
`!L || !C` falsiness test is subsumed by `≤ 0` over the reals), then
roots of `s² + (R/L)s + 1/(LC) = 0` and the stability classification. -/
def calculatePolesAndStability (R L C : ℝ) : PZResult :=
  if L ≤ 0 ∨ C ≤ 0 then
    ⟨[], ⟨"N/A", "L or C is zero or negative."⟩⟩
  else
    ⟨quadRoots (R / L) (1 / (L * C)),
     assessStability (quadRoots (R / L) (1 / (L * C)))⟩

/-- The ``1-rc-charge`` entry of `circuitDefinitions`. -/
def circuitRcCharge : Circuit :=
  ⟨"1-rc-charge", 1, ["V", "R", "C"], "solveRcCharge", "1 / (1 + sRC)"⟩

/-- The ``1-rl-energize`` entry of `circuitDefinitions`. -/
def circuitRlEnergize : Circuit :=
  ⟨"1-rl-energize", 1, ["V", "R", "L"], "solveRlEnergize", "R / (R + sL)"⟩

/-- The ``2-rlc-series`` entry of `circuitDefinitions`. -/
def circuitRlcSeries : Circuit :=
  ⟨"2-rlc-series", 2, ["V", "R", "L", "C"], "solveRlcSeries", "(sRC) / (s^2LC + sRC + 1)"⟩

/-- The ``1-rc-discharge`` entry of `circuitDefinitions`. -/
def circuitRcDischarge : Circuit :=
  ⟨"1-rc-discharge", 1, ["V0", "R", "C"], "solveRcDischarge", "1 / (1 + sRC)"⟩

/-- The ``1-rl-deenergize`` entry of `circuitDefinitions`. -/
def circuitRlDeenergize : Circuit :=
  ⟨"1-rl-deenergize", 1, ["I0", "R", "L"], "solveRlDeEnergize", "R / (R + sL)"⟩

/-- The ``2-rlc-parallel`` entry of `circuitDefinitions` (its `V`
parameter is read as the source current). -/
def circuitRlcParallel : Circuit :=
  ⟨"2-rlc-parallel", 2, ["V", "R", "L", "C"], "solveRlcParallel", "sL / (s^2LC + sL/R + 1)"⟩

/-- The ``3-rllc-series`` entry of `circuitDefinitions`. -/
def circuitRllcSeries : Circuit :=
  ⟨"3-rllc-series", 3, ["V", "R", "L1", "L2", "C"], "solveRllcSeries",
   "1 / (s^2*C*(L1+L2) + s*C*R + 1)"⟩

/-- The ``3-rlcc-series`` entry of `circuitDefinitions`. -/
def circuitRlccSeries : Circuit :=
  ⟨"3-rlcc-series", 3, ["V", "R", "L", "C1", "C2"], "solve3RlccSeries",
   "1 / (s^2*L*C_eq + s*R*C_eq + 1)"⟩

/-- A model's initial state in the registry is either a constant vector
or a function of the parameters (the source distinguishes the two with
a `typeof` test in `solve`). -/
inductive InitialState where
  | const (l : List ℝ)
  | fromParams (g : Params → List ℝ)

/-- A registry entry of `models`: the derivative function, the initial
state, and the output-mapping function producing the named traces. -/
structure Model where
  func : ℝ → List ℝ → Params → List ℝ
  initialState : InitialState
  map : ODEResult → Params → List (String × List ℝ)

/-- The `models` registry from stateSpaceModels.js, keyed by solver
name; unknown keys yield none (the JS lookup gives `undefined`).  Every
registered entry carries a derivative function, so the router's
`typeof model.func` test succeeds exactly when the lookup does. -/
def models : String → Option Model
  | "solveRcCharge" => some
      { func := rcOde, initialState := .const [0],
        map := fun res p =>
          [("Vc", res.y 0),
           ("i", res.time.mapIdx (fun i t => (getVin t p - nth (res.y 0) i) / p.R))] }
  | "solveRcDischarge" => some
      { func := rcOde, initialState := .fromParams (fun p => [p.V0]),
        map := fun res p =>
          [("Vc", res.y 0),
           ("i", res.time.map (fun t => (-p.V0 / p.R) * Real.exp (-t / (p.R * p.C))))] }
  | "solveRlEnergize" => some
      { func := rlOde, initialState := .const [0],
        map := fun res p =>
          [("iL", res.y 0),
           ("Vl", res.time.mapIdx (fun i t => getVin t p - nth (res.y 0) i * p.R))] }
  | "solveRlDeEnergize" => some
      { func := rlOde, initialState := .fromParams (fun p => [p.I0]),
        map := fun res p =>
          [("iL", res.y 0),
           ("Vr", (res.y 0).map (fun i => -i * p.R))] }
  | "solveRlcSeries" => some
      { func := rlcOde, initialState := .const [0, 0],
        map := fun res p =>
          [("Vc", res.y 0), ("i", res.y 1),
           ("Vl", res.time.mapIdx (fun i t =>
              getVin t p - nth (res.y 0) i - nth (res.y 1) i * p.R)),
           ("Vr", (res.y 1).map (fun i => i * p.R))] }
  | "solveRllcSeries" => some
      { func := rllcOde, initialState := .const [0, 0],
        map := fun res p =>
          [("Vc", res.y 0), ("i", res.y 1),
           ("Vl_total", res.time.mapIdx (fun i t =>
              getVin t p - nth (res.y 0) i - nth (res.y 1) i * p.R)),
           ("Vr", (res.y 1).map (fun i => i * p.R))] }
  | "solve3RlccSeries" => some
      { func := rlccOde, initialState := .const [0, 0, 0],
        map := fun res p =>
          [("i", res.y 0), ("Vc1", res.y 1), ("Vc2", res.y 2),
           ("Vc_total", (res.y 1).mapIdx (fun i v => v + nth (res.y 2) i)),
           ("Vr", (res.y 0).map (fun i => i * p.R))] }
  | "solveRlcParallel" => some
      { func := rlcParallelOde, initialState := .const [0, 0],
        map := fun res p =>
          [("Vc", res.y 0), ("iL", res.y 1),
           ("iR", (res.y 0).map (fun v => v / p.R)),
           ("iC", res.time.mapIdx (fun i t =>
              getVin t p - nth (res.y 0) i / p.R - nth (res.y 1) i))] }
  | _ => none

/-- The `typeof`-dispatch on a model's initial state in `solve`. -/
def resolveInitialState (m : Model) (p : Params) : List ℝ :=
  match m.initialState with
  | .const l => l
  | .fromParams g => g p

/-- The validation loop of `solve`: scan the topology's declared
parameter names in order and report the first that is absent or for
which JS `isNaN` holds; none means validation passed.  Note the JS
test is `undefined || isNaN`, so `Infinity` passes. -/
def validateParams : List String → (String → Option JSVal) → Option String
  | [], _ => none
  | name :: rest, raw =>
    match raw name with
    | none => some name
    | some v => if jsIsNaN v then some name else validateParams rest raw

/-- The equivalent series inductance used by the analysis block of
`solve` (`L1 + L2` for the R-L1-L2-C composite, else `params.L`). -/
def seriesLeq (circuit : Circuit) (p : Params) : ℝ :=
  if jsIncludes circuit.id "rllc-series" then p.L1 + p.L2 else p.L

/-- The equivalent capacitance used by the analysis block of `solve`
(the guarded parallel-capacitor formula for the R-L-C1-C2 composite,
else `params.C`), following the source's if/else-if chain. -/
def seriesCeq (circuit : Circuit) (p : Params) : ℝ :=
  if jsIncludes circuit.id "rllc-series" then p.C
  else if jsIncludes circuit.id "rlcc-series" then
    (if p.C1 + p.C2 > 0 then p.C1 * p.C2 / (p.C1 + p.C2) else 0)
  else p.C

/-- The pole/stability part of the analysis block in `solve`: the
series branch runs `calculatePolesAndStability` on the equivalent
R/L/C when the id is not a parallel one and all three are positive;
the parallel branch (reached through the source's if/else-if chain
only when the id matches neither composite) computes the quadratic
`s² + (1/RC)s + 1/(LC)` inline with its own two-way stability check;
otherwise both results stay null. -/
def analysisPZ (circuit : Circuit) (p : Params) :
    Option (List Pole) × Option StabilityStatus :=
  if ¬ jsIncludes circuit.id "rlc-parallel" ∧ p.R > 0 ∧
      seriesLeq circuit p > 0 ∧ seriesCeq circuit p > 0 then
    (some (calculatePolesAndStability p.R (seriesLeq circuit p) (seriesCeq circuit p)).poles,
     some (calculatePolesAndStability p.R (seriesLeq circuit p) (seriesCeq circuit p)).stability)
  else if ¬ jsIncludes circuit.id "rllc-series" ∧ ¬ jsIncludes circuit.id "rlcc-series" ∧
      jsIncludes circuit.id "rlc-parallel" ∧ p.R > 0 ∧ p.L > 0 ∧ p.C > 0 then
    (some (quadRoots (1 / (p.R * p.C)) (1 / (p.L * p.C))),
     some (if (quadRoots (1 / (p.R * p.C)) (1 / (p.L * p.C))).any
              (fun q => decide (q.re > 1e-9)) then
        ⟨"Unstable", "At least one pole with Re(p) > 0."⟩
      else ⟨"Stable", "All poles Re(p) < 0."⟩))
  else (none, none)

/-- The zeros lookup of the analysis block: a single zero at the origin
exactly for the two transfer-function tags whose numerator is
proportional to `s`. -/
def analysisZeros (circuit : Circuit) : List Pole :=
  if circuit.transferFunction = "(sRC) / (s^2LC + sRC + 1)" ∨
      circuit.transferFunction = "sL / (s^2LC + sL/R + 1)" then [⟨0, 0⟩]
  else []

/-- The poles/zeros/stability triple assembled by the analysis block of
`solve` (run only for order 2 and "3" topologies). -/
structure Analysis where
  poles : Option (List Pole)
  zeros : List Pole
  stability : Option StabilityStatus

/-- The analysis block of `solve` (poles, zeros, stability; the
`toFixed`-rendered damping/transfer-function strings are display-only
and outside the embedding). -/
def solveAnalysis (circuit : Circuit) (p : Params) : Analysis :=
  if circuit.order = 2 ∨ circuit.order = 3 then
    ⟨(analysisPZ circuit p).1, analysisZeros circuit, (analysisPZ circuit p).2⟩
  else ⟨none, [], none⟩

/-- The steady-state block of `solve`: non-zero only for Step input,
selected by substring tests on the circuit id (later matches
overwrite earlier ones, as in the source's three separate ifs). -/
def computeFinalValue (circuit : Circuit) (p : Params) : ℝ :=
  if p.inputType = "Step" then
    let fv1 :=
      if jsIncludes circuit.id "rc-charge" || jsIncludes circuit.id "rlc-series" ||
          jsIncludes circuit.id "rllc-series" || jsIncludes circuit.id "rlcc-series" then
        p.V
      else 0
    let fv2 :=
      if jsIncludes circuit.id "rl-energize" then
        (if p.R > 0 then p.V / p.R else 0)
      else fv1
    if jsIncludes circuit.id "rlc-parallel" then p.V * p.R else fv2
  else 0

/-- The aggregate record returned by `solve` (error and unimplemented
results carry only a status and message in the source; the remaining
fields are defaulted here). -/
structure SolveResult where
  status : String
  message : Option String := none
  time : List ℝ := []
  timeDomain : List (String × List ℝ) := []
  freq : List ℝ := []
  mag : List ℝ := []
  phase : List ℝ := []
  finalValue : ℝ := 0
  poles : Option (List Pole) := none
  zeros : List Pole := []
  stability : Option StabilityStatus := none

/-- The body of `solve` after dispatch and validation: run the RK4
integration over `[0, tEnd]` with the registered model (1000 points),
derive the named traces, run the frequency sweep and the analysis
block, and assemble the complete result.  Real arithmetic raises no
exception, so the catch branch is unreachable. -/
def solveNumeric (circuit : Circuit) (m : Model) (p : Params) : SolveResult :=
  let odeResults := solveODE m.func (resolveInitialState m p) p 0 p.tEnd 1000
  let freqDomain := solveFrequencyResponse circuit p
  { status := "complete",
    message := none,
    time := odeResults.time,
    timeDomain := m.map odeResults p,
    freq := freqDomain.freq,
    mag := freqDomain.mag,
    phase := freqDomain.phase,
    finalValue := computeFinalValue circuit p,
    poles := (solveAnalysis circuit p).poles,
    zeros := (solveAnalysis circuit p).zeros,
    stability := (solveAnalysis circuit p).stability }

/-- The dispatch prefix of `solve`: the model lookup comes first
(missing model → unimplemented), the parameter-validation loop second. -/
inductive Gate where
  | unimplemented
  | invalid (name : String)
  | ok (m : Model)

/-- Dispatch for `solve`: look up the registered model, then validate
the declared parameters. -/
def solveGate (circuit : Circuit) (raw : String → Option JSVal) : Gate :=
  match models circuit.solver with
  | none => .unimplemented
  | some m =>
    match validateParams circuit.params raw with
    | some name => .invalid name
    | none => .ok m

/-- The router's `solve`: the raw JS parameter object appears twice, as
the `JSVal` map the validation layer inspects and as the real-valued
record `p` the numeric layer computes with (the two agree whenever
every parameter is a finite number, which is what the numeric theorems
assume). -/
def solve (circuit : Circuit) (raw : String → Option JSVal) (p : Params) :
    SolveResult :=
  match solveGate circuit raw with
  | .unimplemented =>
      { status := "unimplemented",
        message := some "This circuit solver is not yet implemented." }
  | .invalid name =>
      { status := "error",
        message := some ("Invalid or missing parameter: " ++ name) }
  | .ok m => solveNumeric circuit m p

/-- The backward scan of the settling-time block in `calculateMetrics`:
`lastOutsideAux pred n` is the greatest `i < n` with `pred i`, scanning
from `n - 1` downward as the source's `for` loop does. -/
def lastOutsideAux (pred : ℕ → Bool) : ℕ → Option ℕ
  | 0 => none
  | i + 1 => if pred i then some i else lastOutsideAux pred i

/-- The settling-time computation of `calculateMetrics`: find the last
sample outside the ±2 percent band around `finalValue` and report the
time of the following sample (clamped to the last sample); report the
first sample's time when every sample is inside the band. -/
def settlingTime (time signal : List ℝ) (finalValue : ℝ) : ℝ :=
  let len := time.length
  match lastOutsideAux
      (fun i => decide (nth signal i < finalValue * 0.98 ∨
                        nth signal i > finalValue * 1.02)) len with
  | some i => nth time (if i + 1 < len then i + 1 else i)
  | none => nth time 0

/-- Membership in the ±2 percent settling band. -/
def inBand (x finalValue : ℝ) : Prop :=
  finalValue * 0.98 ≤ x ∧ x ≤ finalValue * 1.02

/-- Reading index `i` of a mapped range gives the function value. -/
theorem nthD_range_map {α : Type} (f : ℕ → α) (n i : ℕ) (d : α) (h : i < n) :
    nthD ((List.range n).map f) i d = f i := by
  simp [nthD, List.getElem?_map, List.getElem?_range, h]

/-- The accumulated time after `i` loop trips is `t0 + i·dt`. -/
theorem odeIter_fst {P : Type} (f : ℝ → List ℝ → P → List ℝ) (p : P)
    (dt t0 : ℝ) (s0 : List ℝ) (i : ℕ) :
    (odeIter f p dt (t0, s0) i).1 = t0 + i * dt := by
  induction i with
  | zero => simp [odeIter]
  | succ i ih =>
      simp only [odeIter, odeStep, ih, Nat.cast_succ]
      ring

/-- Claim C1: `solveODE` produces exactly `points` samples; the time
grid starts at `tStart` and advances by the uniform step
`h = (tEnd - tStart)/(points - 1)`; the first stored state is the
initial state; and each successive stored state is the previous one
advanced by the classical RK4 update `state + (h/6)(k1 + 2k2 + 2k3 +
k4)` with stages `k1 = f(t, s)`, `k2 = f(t + h/2, s + (h/2)k1)`,
`k3 = f(t + h/2, s + (h/2)k2)`, `k4 = f(t + h, s + h·k3)` taken at the
stored sample time (`rk4Step`). -/
theorem solveODE_rk4_spec {P : Type} (f : ℝ → List ℝ → P → List ℝ)
    (init : List ℝ) (p : P) (tStart tEnd : ℝ) (points : ℕ) :
    (solveODE f init p tStart tEnd points).time.length = points ∧
    (solveODE f init p tStart tEnd points).states.length = points ∧
    (∀ i, i < points →
      nth (solveODE f init p tStart tEnd points).time i =
        tStart + i * ((tEnd - tStart) / ((points : ℝ) - 1))) ∧
    (0 < points → nthD (solveODE f init p tStart tEnd points).states 0 [] = init) ∧
    (∀ i, i + 1 < points →
      nthD (solveODE f init p tStart tEnd points).states (i + 1) [] =
        rk4Step f p ((tEnd - tStart) / ((points : ℝ) - 1))
          (nth (solveODE f init p tStart tEnd points).time i)
          (nthD (solveODE f init p tStart tEnd points).states i [])) := by
  refine ⟨by simp [solveODE], by simp [solveODE], ?_, ?_, ?_⟩
  · intro i hi
    rw [show nth (solveODE f init p tStart tEnd points).time i =
        nthD (solveODE f init p tStart tEnd points).time i 0 from rfl]
    simp only [solveODE]
    rw [nthD_range_map _ _ _ _ hi, odeIter_fst]
  · intro hp
    simp only [solveODE]
    rw [nthD_range_map _ _ _ _ hp]
    rfl
  · intro i hi
    have hi1 : i < points := Nat.lt_of_succ_lt hi
    rw [show nth (solveODE f init p tStart tEnd points).time i =
        nthD (solveODE f init p tStart tEnd points).time i 0 from rfl]
    simp only [solveODE]
    rw [nthD_range_map _ _ _ _ hi, nthD_range_map _ _ _ _ hi1,
        nthD_range_map _ _ _ _ hi1, odeIter_fst]
    have hstep : (odeIter f p ((tEnd - tStart) / ((points : ℝ) - 1)) (tStart, init) (i + 1)).2 =
        rk4Step f p ((tEnd - tStart) / ((points : ℝ) - 1))
          (odeIter f p ((tEnd - tStart) / ((points : ℝ) - 1)) (tStart, init) i).1
          (odeIter f p ((tEnd - tStart) / ((points : ℝ) - 1)) (tStart, init) i).2 := rfl
    rw [hstep, odeIter_fst]

/-- Witness for C1 at a concrete derivative function, initial state and
grid: 5 samples over `[0, 1]`, so the step is 1/4; sample 2 of the time
grid sits at `0 + 2·(1/4)`; the first state is the initial state. -/
theorem solveODE_rk4_spec_witness :
    (solveODE (fun _ s (_ : Unit) => s) [1] () 0 1 5).time.length = 5 ∧
    nth (solveODE (fun _ s (_ : Unit) => s) [1] () 0 1 5).time 2 =
      0 + 2 * ((1 - 0) / ((5 : ℝ) - 1)) ∧
    nthD (solveODE (fun _ s (_ : Unit) => s) [1] () 0 1 5).states 0 [] = [1] := by
  refine ⟨(solveODE_rk4_spec (fun _ s (_ : Unit) => s) [1] () 0 1 5).1, ?_, ?_⟩
  · have h := (solveODE_rk4_spec (fun _ s (_ : Unit) => s) [1] () 0 1 5).2.2.1 2
      (by norm_num)
    simpa using h
  · exact (solveODE_rk4_spec (fun _ s (_ : Unit) => s) [1] () 0 1 5).2.2.2.1
      (by norm_num)

/-- The default frequency sweep has exactly 500 samples. -/
theorem generateFrequencyVector_length (fMin fMax : ℝ) (points : ℕ) :
    (generateFrequencyVector fMin fMax points).length = points := by
  simp only [generateFrequencyVector, List.length_map, List.length_range]

/-- Claim C5: the default frequency vector has exactly 500 points with
`f_i = 10^(log10 fMin + i·(log10 fMax - log10 fMin)/(points-1))` for
every index, spans 1 Hz (index 0) to 1 MHz (index 499), is strictly
increasing, and has the constant log10 gap
`(log10 1e6 - log10 1)/499` between adjacent samples. -/
theorem generateFrequencyVector_spec :
    (generateFrequencyVector 1 1e6 500).length = 500 ∧
    (∀ i, i < 500 → nth (generateFrequencyVector 1 1e6 500) i =
      (10 : ℝ) ^ (log10 1 + (i : ℝ) * ((log10 1e6 - log10 1) / ((500 : ℝ) - 1)))) ∧
    nth (generateFrequencyVector 1 1e6 500) 0 = 1 ∧
    nth (generateFrequencyVector 1 1e6 500) 499 = 1e6 ∧
    (∀ i, i + 1 < 500 →
      nth (generateFrequencyVector 1 1e6 500) i <
      nth (generateFrequencyVector 1 1e6 500) (i + 1)) ∧
    (∀ i, i + 1 < 500 →
      log10 (nth (generateFrequencyVector 1 1e6 500) (i + 1)) -
      log10 (nth (generateFrequencyVector 1 1e6 500) i) =
        (log10 1e6 - log10 1) / ((500 : ℝ) - 1)) := by
  have hb : (1 : ℝ) < 10 := by norm_num
  have hb0 : (0 : ℝ) < 10 := by norm_num
  have hb1 : (10 : ℝ) ≠ 1 := by norm_num
  have hget : ∀ i, i < 500 → nth (generateFrequencyVector 1 1e6 500) i =
      (10 : ℝ) ^ (log10 1 + (i : ℝ) * ((log10 1e6 - log10 1) / ((500 : ℝ) - 1))) := by
    intro i hi
    rw [show nth (generateFrequencyVector 1 1e6 500) i =
        nthD (generateFrequencyVector 1 1e6 500) i 0 from rfl]
    simp only [generateFrequencyVector]
    rw [nthD_range_map _ _ _ _ hi]
    norm_num
  have h6 : (0 : ℝ) < Real.logb 10 1e6 := Real.logb_pos hb (by norm_num)
  have hstep : (0 : ℝ) < (log10 1e6 - log10 1) / ((500 : ℝ) - 1) := by
    simp only [log10, Real.logb_one]
    exact div_pos (by linarith) (by norm_num)
  refine ⟨generateFrequencyVector_length 1 1e6 500, hget, ?_, ?_, ?_, ?_⟩
  · rw [hget 0 (by norm_num)]
    simp only [log10, Real.logb_one, Nat.cast_zero, zero_mul, add_zero]
    exact Real.rpow_zero 10
  · rw [hget 499 (by norm_num)]
    have he : log10 1 + ((499 : ℕ) : ℝ) * ((log10 1e6 - log10 1) / ((500 : ℝ) - 1)) =
        Real.logb 10 1e6 := by
      simp only [log10, Real.logb_one]
      push_cast
      field_simp
      ring
    rw [he]
    exact Real.rpow_logb hb0 hb1 (by norm_num)
  · intro i hi
    rw [hget i (by omega), hget (i + 1) hi]
    rw [Real.rpow_lt_rpow_left_iff hb]
    push_cast
    nlinarith [hstep]
  · intro i hi
    rw [hget i (by omega), hget (i + 1) hi]
    simp only [log10]
    rw [Real.logb_rpow hb0 hb1, Real.logb_rpow hb0 hb1]
    push_cast
    ring

/-- Witness for C5: the sweep's length, its 1 Hz start, and strict
growth across the first pair of samples. -/
theorem generateFrequencyVector_spec_witness :
    (generateFrequencyVector 1 1e6 500).length = 500 ∧
    nth (generateFrequencyVector 1 1e6 500) 0 = 1 ∧
    nth (generateFrequencyVector 1 1e6 500) 0 <
      nth (generateFrequencyVector 1 1e6 500) 1 :=
  ⟨generateFrequencyVector_spec.1,
   generateFrequencyVector_spec.2.2.1,
   generateFrequencyVector_spec.2.2.2.2.1 0 (by norm_num)⟩

/-- Claim C3: for positive R, L, C the analyzer returns exactly two
poles built from `b = R/L`, `c = 1/(LC)`: two real roots
`(-b ± sqrt(b² - 4c))/2` when the discriminant is non-negative,
otherwise the conjugate pair `-b/2 ± i·sqrt(4c - b²)/2`; in both cases
the complex sum of the two poles is `-R/L` (with zero imaginary part)
and their complex product is `1/(LC)` (with zero imaginary part),
exactly, in real arithmetic. -/
theorem calculatePoles_vieta_spec (R L C : ℝ) (hR : 0 < R) (hL : 0 < L) (hC : 0 < C) :
    (calculatePolesAndStability R L C).poles.length = 2 ∧
    (∀ p1 p2, (calculatePolesAndStability R L C).poles = [p1, p2] →
      p1.re + p2.re = -(R / L) ∧ p1.im + p2.im = 0 ∧
      p1.re * p2.re - p1.im * p2.im = 1 / (L * C) ∧
      p1.re * p2.im + p1.im * p2.re = 0) ∧
    ((R / L) * (R / L) - 4 * (1 / (L * C)) ≥ 0 →
      (calculatePolesAndStability R L C).poles =
        [⟨(-(R / L) + Real.sqrt ((R / L) * (R / L) - 4 * (1 / (L * C)))) / 2, 0⟩,
         ⟨(-(R / L) - Real.sqrt ((R / L) * (R / L) - 4 * (1 / (L * C)))) / 2, 0⟩]) ∧
    ((R / L) * (R / L) - 4 * (1 / (L * C)) < 0 →
      (calculatePolesAndStability R L C).poles =
        [⟨-(R / L) / 2, Real.sqrt (4 * (1 / (L * C)) - (R / L) * (R / L)) / 2⟩,
         ⟨-(R / L) / 2, -(Real.sqrt (4 * (1 / (L * C)) - (R / L) * (R / L)) / 2)⟩]) := by
  have hguard : ¬ (L ≤ 0 ∨ C ≤ 0) := by push_neg; exact ⟨hL, hC⟩
  have hpoles : (calculatePolesAndStability R L C).poles =
      quadRoots (R / L) (1 / (L * C)) := by
    rw [calculatePolesAndStability, if_neg hguard]
  have hneg : -((R / L) * (R / L) - 4 * (1 / (L * C))) =
      4 * (1 / (L * C)) - (R / L) * (R / L) := by ring
  by_cases hd : (R / L) * (R / L) - 4 * (1 / (L * C)) ≥ 0
  · have hq : quadRoots (R / L) (1 / (L * C)) =
        [⟨(-(R / L) + Real.sqrt ((R / L) * (R / L) - 4 * (1 / (L * C)))) / 2, 0⟩,
         ⟨(-(R / L) - Real.sqrt ((R / L) * (R / L) - 4 * (1 / (L * C)))) / 2, 0⟩] := by
      rw [quadRoots, if_pos hd]
    have hs : Real.sqrt ((R / L) * (R / L) - 4 * (1 / (L * C))) *
        Real.sqrt ((R / L) * (R / L) - 4 * (1 / (L * C))) =
        (R / L) * (R / L) - 4 * (1 / (L * C)) := Real.mul_self_sqrt hd
    refine ⟨by rw [hpoles, hq]; rfl, ?_, fun _ => by rw [hpoles, hq], fun h => absurd hd (by linarith)⟩
    intro p1 p2 h
    rw [hpoles, hq] at h
    have h1 : p1 = ⟨(-(R / L) + Real.sqrt ((R / L) * (R / L) - 4 * (1 / (L * C)))) / 2, 0⟩ := by
      injection h with ha hb; exact ha.symm
    have h2 : p2 = ⟨(-(R / L) - Real.sqrt ((R / L) * (R / L) - 4 * (1 / (L * C)))) / 2, 0⟩ := by
      injection h with ha hb; injection hb with hc hd2; exact hc.symm
    subst h1; subst h2
    refine ⟨by ring, by ring, ?_, by ring⟩
    show (-(R / L) + Real.sqrt ((R / L) * (R / L) - 4 * (1 / (L * C)))) / 2 *
        ((-(R / L) - Real.sqrt ((R / L) * (R / L) - 4 * (1 / (L * C)))) / 2) - 0 * 0 =
        1 / (L * C)
    linear_combination (-(1 : ℝ) / 4) * hs
  · push_neg at hd
    have hd4 : (0 : ℝ) ≤ 4 * (1 / (L * C)) - (R / L) * (R / L) := by linarith
    have hq : quadRoots (R / L) (1 / (L * C)) =
        [⟨-(R / L) / 2, Real.sqrt (4 * (1 / (L * C)) - (R / L) * (R / L)) / 2⟩,
         ⟨-(R / L) / 2, -(Real.sqrt (4 * (1 / (L * C)) - (R / L) * (R / L)) / 2)⟩] := by
      rw [quadRoots, if_neg (by linarith), hneg]
    have hs : Real.sqrt (4 * (1 / (L * C)) - (R / L) * (R / L)) *
        Real.sqrt (4 * (1 / (L * C)) - (R / L) * (R / L)) =
        4 * (1 / (L * C)) - (R / L) * (R / L) := Real.mul_self_sqrt hd4
    refine ⟨by rw [hpoles, hq]; rfl, ?_, fun h => absurd h (by linarith), fun _ => by rw [hpoles, hq]⟩
    intro p1 p2 h
    rw [hpoles, hq] at h
    have h1 : p1 = ⟨-(R / L) / 2, Real.sqrt (4 * (1 / (L * C)) - (R / L) * (R / L)) / 2⟩ := by
      injection h with ha hb; exact ha.symm
    have h2 : p2 = ⟨-(R / L) / 2, -(Real.sqrt (4 * (1 / (L * C)) - (R / L) * (R / L)) / 2)⟩ := by
      injection h with ha hb; injection hb with hc hd2; exact hc.symm
    subst h1; subst h2
    refine ⟨by ring, by ring, ?_, by ring⟩
    show -(R / L) / 2 * (-(R / L) / 2) -
        Real.sqrt (4 * (1 / (L * C)) - (R / L) * (R / L)) / 2 *
          -(Real.sqrt (4 * (1 / (L * C)) - (R / L) * (R / L)) / 2) = 1 / (L * C)
    linear_combination ((1 : ℝ) / 4) * hs

/-- Witness for C3 at the spec's concrete series RLC values
`R = 50`, `L = 0.01`, `C = 1e-6`: the analyzer returns two poles. -/
theorem calculatePoles_vieta_spec_witness :
    (calculatePolesAndStability 50 (1 / 100) (1 / 1000000)).poles.length = 2 :=
  (calculatePoles_vieta_spec 50 (1 / 100) (1 / 1000000)
    (by norm_num) (by norm_num) (by norm_num)).1

/-- On a two-pole list with no pole right of the tolerance band, both
poles on the imaginary axis, and matching imaginary-part magnitudes,
the classifier reports repeated imaginary-axis poles. -/
theorem assessStability_pair_repeated (p0 p1 : Pole)
    (h0 : ¬ p0.re > 1e-9) (h1 : ¬ p1.re > 1e-9)
    (ha0 : |p0.re| ≤ 1e-9) (ha1 : |p1.re| ≤ 1e-9)
    (hrep : |p0.im - p1.im| < 1e-9 ∨ |p0.im + p1.im| < 1e-9) :
    assessStability [p0, p1] = ⟨"Unstable", "Repeated poles on imaginary axis."⟩ := by
  have hany : ([p0, p1].any (fun q => decide (q.re > 1e-9))) = false := by
    simp [h0, h1]
  have hfil : [p0, p1].filter (fun q => decide (|q.re| ≤ 1e-9)) = [p0, p1] := by
    simp [List.filter, ha0, ha1]
  unfold assessStability
  rw [hany, hfil]
  simp only [Bool.false_eq_true, if_false]
  exact if_pos hrep

/-- On a two-pole list with both poles strictly left of the tolerance
band, the classifier reports stability. -/
theorem assessStability_pair_stable (p0 p1 : Pole)
    (h0 : ¬ p0.re > 1e-9) (h1 : ¬ p1.re > 1e-9)
    (ha0 : ¬ |p0.re| ≤ 1e-9) (ha1 : ¬ |p1.re| ≤ 1e-9) :
    assessStability [p0, p1] = ⟨"Stable", "All poles Re(p) < 0."⟩ := by
  have hany : ([p0, p1].any (fun q => decide (q.re > 1e-9))) = false := by
    simp [h0, h1]
  have hfil : [p0, p1].filter (fun q => decide (|q.re| ≤ 1e-9)) = [] := by
    simp [List.filter, ha0, ha1]
  unfold assessStability
  rw [hany, hfil]
  simp only [Bool.false_eq_true, if_false]

/-- With `R = 0` the router's analysis branch (which requires a
strictly positive equivalent resistance) is skipped entirely for the
series RLC topology, so neither poles nor a stability verdict are
produced. -/
theorem solveAnalysis_series_R0 (p : Params) (hp : p.R = 0) :
    (solveAnalysis circuitRlcSeries p).stability = none ∧
    (solveAnalysis circuitRlcSeries p).poles = none := by
  have hpz : analysisPZ circuitRlcSeries p = (none, none) := by
    rw [analysisPZ, if_neg, if_neg]
    · intro h
      have : jsIncludes circuitRlcSeries.id "rlc-parallel" = true := h.2.2.1
      exact absurd this (by decide)
    · intro h
      have : p.R > 0 := h.2.1
      rw [hp] at this
      exact absurd this (by norm_num)
  constructor
  · rw [show (solveAnalysis circuitRlcSeries p).stability =
        (if circuitRlcSeries.order = 2 ∨ circuitRlcSeries.order = 3 then
          (⟨(analysisPZ circuitRlcSeries p).1, analysisZeros circuitRlcSeries,
            (analysisPZ circuitRlcSeries p).2⟩ : Analysis)
         else ⟨none, [], none⟩).stability from rfl,
       if_pos (by left; rfl), hpz]
  · rw [show (solveAnalysis circuitRlcSeries p).poles =
        (if circuitRlcSeries.order = 2 ∨ circuitRlcSeries.order = 3 then
          (⟨(analysisPZ circuitRlcSeries p).1, analysisZeros circuitRlcSeries,
            (analysisPZ circuitRlcSeries p).2⟩ : Analysis)
         else ⟨none, [], none⟩).poles from rfl,
       if_pos (by left; rfl), hpz]

/-- When the model lookup and validation both pass, `solve` runs the
numeric body on the registered model. -/
theorem solve_ok (circuit : Circuit) (raw : String → Option JSVal) (p : Params)
    (m : Model) (hm : models circuit.solver = some m)
    (hv : validateParams circuit.params raw = none) :
    solve circuit raw p = solveNumeric circuit m p := by
  simp only [solve, solveGate, hm, hv]

/-- The raw parameter object of the C4 counterexample: series RLC with
`R = 0` and finite `V`, `L`, `C`. -/
def rawSeriesR0 : String → Option JSVal := fun name =>
  if name = "V" then some (.num 10)
  else if name = "R" then some (.num 0)
  else if name = "L" then some (.num (1 / 100))
  else if name = "C" then some (.num (1 / 1000000))
  else none

/-- The real-valued reading of `rawSeriesR0` with a Step input. -/
def paramsSeriesR0 : Params :=
  { R := 0, L := 1 / 100, C := 1 / 1000000, V := 10, tEnd := 1 / 100,
    inputType := "Step" }

/-- Counterexample to claim C4: simulating the series RLC topology at
exactly `R = 0` (with `L = 0.01`, `C = 1e-6`) yields no stability
verdict at all (the result's stability field is null), not the claimed
Marginally Stable verdict, because the router's analysis branch
requires `R > 0`. -/
theorem stabilityAtZeroR_counterexample :
    (solve circuitRlcSeries rawSeriesR0 paramsSeriesR0).stability = none := by
  rw [solve_ok circuitRlcSeries rawSeriesR0 paramsSeriesR0 _ rfl rfl]
  exact (solveAnalysis_series_R0 paramsSeriesR0 rfl).1

/-- Claim C4 (amended): for the series RLC topology with fixed
`L, C > 0` the router produces a Stable verdict at the defaults
`R = 50, L = 0.01, C = 1e-6`; but at `R = 0` the router skips pole
analysis entirely (verdict and poles are null), and the pole analyzer
itself, called at `R = 0`, classifies the imaginary-axis conjugate
pair as repeated (its check `|im1 + im2| < 1e-9` is satisfied by every
conjugate pair) and returns Unstable — never Marginally Stable. -/
theorem stabilityAtZeroR_amended :
    (∀ p : Params, p.R = 0 →
      (solveAnalysis circuitRlcSeries p).stability = none ∧
      (solveAnalysis circuitRlcSeries p).poles = none) ∧
    (∀ L C : ℝ, 0 < L → 0 < C →
      (calculatePolesAndStability 0 L C).stability =
        ⟨"Unstable", "Repeated poles on imaginary axis."⟩) ∧
    (calculatePolesAndStability 50 (1 / 100) (1 / 1000000)).stability =
      ⟨"Stable", "All poles Re(p) < 0."⟩ := by
  refine ⟨solveAnalysis_series_R0, ?_, ?_⟩
  · intro L C hL hC
    have hguard : ¬ (L ≤ 0 ∨ C ≤ 0) := by push_neg; exact ⟨hL, hC⟩
    have hc : (0 : ℝ) < 1 / (L * C) := by positivity
    have hdisc : ¬ ((0 : ℝ) / L * (0 / L) - 4 * (1 / (L * C)) ≥ 0) := by
      rw [zero_div]
      push_neg
      nlinarith
    have hstab : (calculatePolesAndStability 0 L C).stability =
        assessStability (quadRoots (0 / L) (1 / (L * C))) := by
      rw [calculatePolesAndStability, if_neg hguard]
    rw [hstab, quadRoots, if_neg hdisc]
    refine assessStability_pair_repeated _ _ ?_ ?_ ?_ ?_ ?_ <;>
      simp only [zero_div, neg_zero]
    · norm_num
    · norm_num
    · norm_num
    · norm_num
    · right
      rw [add_neg_cancel, abs_zero]
      norm_num
  · have hguard : ¬ ((1 : ℝ) / 100 ≤ 0 ∨ (1 : ℝ) / 1000000 ≤ 0) := by norm_num
    have hstab : (calculatePolesAndStability 50 (1 / 100) (1 / 1000000)).stability =
        assessStability (quadRoots ((50 : ℝ) / (1 / 100)) (1 / (1 / 100 * (1 / 1000000)))) := by
      rw [calculatePolesAndStability, if_neg hguard]
    rw [hstab, quadRoots, if_neg (by norm_num)]
    refine assessStability_pair_stable _ _ ?_ ?_ ?_ ?_ <;>
      simp only [abs_le, not_and_or, not_le] <;> norm_num

/-- Witness for C4 (amended) at concrete inputs: at `R = 0, L = 1,
C = 1` the analyzer reports Unstable with repeated imaginary-axis
poles, and the router's analysis of the series topology with the
`R = 0` parameter record reports no verdict. -/
theorem stabilityAtZeroR_amended_witness :
    (calculatePolesAndStability 0 1 1).stability =
      ⟨"Unstable", "Repeated poles on imaginary axis."⟩ ∧
    (solveAnalysis circuitRlcSeries paramsSeriesR0).stability = none :=
  ⟨stabilityAtZeroR_amended.2.1 1 1 (by norm_num) (by norm_num),
   (stabilityAtZeroR_amended.1 paramsSeriesR0 rfl).1⟩

/-- Validation passes exactly when every declared parameter is present
and not NaN under the JS `isNaN` test. -/
theorem validateParams_none_iff (ps : List String) (raw : String → Option JSVal) :
    validateParams ps raw = none ↔
      ∀ name ∈ ps, ∃ v, raw name = some v ∧ jsIsNaN v = false := by
  induction ps with
  | nil => simp [validateParams]
  | cons name rest ih =>
    cases hv : raw name with
    | none =>
      have hred : validateParams (name :: rest) raw = some name := by
        rw [validateParams, hv]
      rw [hred]
      constructor
      · intro h; cases h
      · intro h
        obtain ⟨v, hv2, _⟩ := h name (List.mem_cons_self name rest)
        rw [hv] at hv2; cases hv2
    | some v =>
      have hred : validateParams (name :: rest) raw =
          (if jsIsNaN v = true then some name else validateParams rest raw) := by
        rw [validateParams, hv]
      by_cases hnan : jsIsNaN v = true
      · rw [hred, if_pos hnan]
        constructor
        · intro h; cases h
        · intro h
          obtain ⟨w, hw, hwf⟩ := h name (List.mem_cons_self name rest)
          rw [hv] at hw
          injection hw with hw
          subst hw
          rw [hnan] at hwf
          cases hwf
      · rw [hred, if_neg hnan, ih]
        constructor
        · intro h n hn
          rcases List.mem_cons.mp hn with hn | hn
          · subst hn
            exact ⟨v, hv, Bool.not_eq_true _ ▸ Bool.of_not_eq_true hnan⟩
          · exact h n hn
        · intro h n hn
          exact h n (List.mem_cons_of_mem _ hn)

/-- A validation failure reports a declared parameter that is missing
or NaN. -/
theorem validateParams_some (ps : List String) (raw : String → Option JSVal)
    (bad : String) (h : validateParams ps raw = some bad) :
    bad ∈ ps ∧ (raw bad = none ∨ ∃ v, raw bad = some v ∧ jsIsNaN v = true) := by
  induction ps with
  | nil => cases h
  | cons name rest ih =>
    cases hv : raw name with
    | none =>
      have hred : validateParams (name :: rest) raw = some name := by
        rw [validateParams, hv]
      rw [hred] at h
      injection h with h
      subst h
      exact ⟨List.mem_cons_self _ _, Or.inl hv⟩
    | some v =>
      have hred : validateParams (name :: rest) raw =
          (if jsIsNaN v = true then some name else validateParams rest raw) := by
        rw [validateParams, hv]
      rw [hred] at h
      by_cases hnan : jsIsNaN v = true
      · rw [if_pos hnan] at h
        injection h with h
        subst h
        exact ⟨List.mem_cons_self _ _, Or.inr ⟨v, hv, hnan⟩⟩
      · rw [if_neg hnan] at h
        obtain ⟨hm, hrest⟩ := ih h
        exact ⟨List.mem_cons_of_mem _ hm, hrest⟩

/-- When validation fails after a successful model lookup, `solve`
returns the error record naming the offending parameter, independently
of the numeric parameter record (no computation happens). -/
theorem solve_invalid (circuit : Circuit) (raw : String → Option JSVal)
    (m : Model) (bad : String) (hm : models circuit.solver = some m)
    (hv : validateParams circuit.params raw = some bad) (p : Params) :
    solve circuit raw p =
      { status := "error",
        message := some ("Invalid or missing parameter: " ++ bad) } := by
  simp only [solve, solveGate, hm, hv]

/-- The raw parameter object of the C2 counterexample: the RC-charge
parameters with `R = Infinity` (present but non-finite). -/
def rawInfR : String → Option JSVal := fun name =>
  if name = "V" then some (.num 10)
  else if name = "R" then some .inf
  else if name = "C" then some (.num (1 / 1000000))
  else none

/-- An arbitrary real-valued parameter record (all zero). -/
def paramsZero : Params := {}

/-- Counterexample to claim C2: for the RC-charge topology with
`R = Infinity` — a present but non-finite required parameter — the
validation loop passes (JS `isNaN(Infinity)` is false) and `solve`
proceeds to a complete result instead of returning the claimed
validation error. -/
theorem validateParams_infinity_counterexample :
    rawInfR "R" = some JSVal.inf ∧
    jsIsFinite JSVal.inf = false ∧
    validateParams circuitRcCharge.params rawInfR = none ∧
    (solve circuitRcCharge rawInfR paramsZero).status = "complete" := by
  refine ⟨rfl, rfl, rfl, ?_⟩
  rw [solve_ok circuitRcCharge rawInfR paramsZero _ rfl rfl]
  rfl

/-- Claim C2 (amended): the router's validation rejects exactly the
topology's declared parameters that are missing or NaN — `Infinity`
passes the JS `isNaN` test — and on failure `solve` returns, before
any computation (uniformly in the numeric parameters), the error
record naming an offending declared parameter; validation passes iff
every declared parameter is present and not NaN. -/
theorem validateParams_spec :
    (∀ (ps : List String) (raw : String → Option JSVal),
      validateParams ps raw = none ↔
        ∀ name ∈ ps, ∃ v, raw name = some v ∧ jsIsNaN v = false) ∧
    (∀ (ps : List String) (raw : String → Option JSVal) (bad : String),
      validateParams ps raw = some bad →
        bad ∈ ps ∧ (raw bad = none ∨ ∃ v, raw bad = some v ∧ jsIsNaN v = true)) ∧
    (∀ (circuit : Circuit) (raw : String → Option JSVal) (m : Model) (bad : String),
      models circuit.solver = some m →
      validateParams circuit.params raw = some bad →
      ∀ p : Params, solve circuit raw p =
        { status := "error",
          message := some ("Invalid or missing parameter: " ++ bad) }) :=
  ⟨validateParams_none_iff, validateParams_some,
   fun circuit raw m bad hm hv p => solve_invalid circuit raw m bad hm hv p⟩

/-- The raw parameter object of the C2 witness: `V` is NaN. -/
def rawNaNV : String → Option JSVal := fun name =>
  if name = "V" then some .nan else some (.num 1)

/-- Witness for C2 (amended): with `V = NaN` in the RC-charge topology,
`solve` returns the validation error naming `V`. -/
theorem validateParams_spec_witness :
    solve circuitRcCharge rawNaNV paramsZero =
      { status := "error",
        message := some ("Invalid or missing parameter: " ++ "V") } :=
  validateParams_spec.2.2 circuitRcCharge rawNaNV _ "V" rfl rfl paramsZero

/-- A topology whose declared solver key has no registered model. -/
def circuitUnregistered : Circuit :=
  ⟨"9-bandpass", 2, ["V", "R"], "solveBandPass", "none"⟩

/-- A raw parameter object with every parameter missing. -/
def rawEmpty : String → Option JSVal := fun _ => none

/-- Claim C10: the model lookup precedes parameter validation, so a
circuit whose solver key has no registered model yields the
unimplemented result for every raw parameter object — even one with
missing or NaN parameters — and never a validation error. -/
theorem unimplementedBeforeValidation_spec :
    ∀ (circuit : Circuit) (raw : String → Option JSVal) (p : Params),
      models circuit.solver = none →
      solve circuit raw p =
        { status := "unimplemented",
          message := some "This circuit solver is not yet implemented." } := by
  intro circuit raw p hm
  simp only [solve, solveGate, hm]

/-- Witness for C10: an unregistered solver key with every parameter
missing still yields the unimplemented result, not a validation
error. -/
theorem unimplementedBeforeValidation_spec_witness :
    solve circuitUnregistered rawEmpty paramsZero =
      { status := "unimplemented",
        message := some "This circuit solver is not yet implemented." } :=
  unimplementedBeforeValidation_spec circuitUnregistered rawEmpty paramsZero rfl

/-- A parameter record with every component value 1 and a Step input. -/
def paramsOnes : Params :=
  { R := 1, L := 1, C := 1, L1 := 1, L2 := 1, C1 := 1, C2 := 1, V := 1,
    tEnd := 1, inputType := "Step" }

/-- Counterexample to claim C7: the R-L-C1-C2 time-domain model does
not delegate to the 2-state RLC model with `C` replaced by
`C1·C2/(C1+C2)`; at `t = 0`, state `[1, 1, 1]` and all-ones parameters
the two functions do not even agree in dimension (3 state derivatives
against 2). -/
theorem compositeReduction_counterexample :
    rlccOde 0 [1, 1, 1] paramsOnes ≠
      rlcOde 0 [1, 1, 1]
        { paramsOnes with C := paramsOnes.C1 * paramsOnes.C2 / (paramsOnes.C1 + paramsOnes.C2) } := by
  intro h
  have hlen := congrArg List.length h
  simp [rlccOde, rlcOde] at hlen

/-- Claim C7 (amended): the R-L1-L2-C model delegates pointwise to the
2-state series RLC model with `L` replaced by `L1 + L2`; the
R-L-C1-C2 model is instead a genuine 3-state model whose projection
`(iL, Vc1 + Vc2)` satisfies the 2-state series RLC equations with `C`
replaced by `C1·C2/(C1+C2)` (for non-zero `C1`, `C2`, `C1+C2`); the
guard against `C1 + C2 = 0` lives in the router's equivalent-
capacitance computation, not in the time-domain model. -/
theorem compositeReduction_amended :
    (∀ (t : ℝ) (state : List ℝ) (p : Params),
      rllcOde t state p = rlcOde t state { p with L := p.L1 + p.L2 }) ∧
    (∀ (t iL Vc1 Vc2 : ℝ) (p : Params),
      p.C1 ≠ 0 → p.C2 ≠ 0 → p.C1 + p.C2 ≠ 0 →
      nth (rlccOde t [iL, Vc1, Vc2] p) 0 =
        nth (rlcOde t [Vc1 + Vc2, iL]
          { p with C := p.C1 * p.C2 / (p.C1 + p.C2) }) 1 ∧
      nth (rlccOde t [iL, Vc1, Vc2] p) 1 + nth (rlccOde t [iL, Vc1, Vc2] p) 2 =
        nth (rlcOde t [Vc1 + Vc2, iL]
          { p with C := p.C1 * p.C2 / (p.C1 + p.C2) }) 0) ∧
    (∀ p : Params, seriesCeq circuitRlccSeries p =
      (if p.C1 + p.C2 > 0 then p.C1 * p.C2 / (p.C1 + p.C2) else 0)) := by
  refine ⟨fun t state p => rfl, ?_, ?_⟩
  · intro t iL Vc1 Vc2 p hC1 hC2 hsum
    have hvin : getVin t { p with C := p.C1 * p.C2 / (p.C1 + p.C2) } = getVin t p := rfl
    constructor
    · simp only [rlccOde, rlcOde, nth, nthD, hvin]
      norm_num
      ring
    · simp only [rlccOde, rlcOde, nth, nthD, hvin]
      norm_num
      field_simp
      ring
  · intro p
    rw [seriesCeq, if_neg (by decide), if_pos (by decide)]

/-- Witness for C7 (amended) at `t = 0`, state `[1, 1, 1]`, all-ones
parameters: the summed capacitor-voltage derivatives of the 3-state
model equal the capacitor-voltage derivative of the reduced 2-state
model. -/
theorem compositeReduction_amended_witness :
    nth (rlccOde 0 [1, 1, 1] paramsOnes) 1 + nth (rlccOde 0 [1, 1, 1] paramsOnes) 2 =
      nth (rlcOde 0 [(1 : ℝ) + 1, 1]
        { paramsOnes with C := paramsOnes.C1 * paramsOnes.C2 / (paramsOnes.C1 + paramsOnes.C2) }) 0 :=
  (compositeReduction_amended.2.1 0 1 1 1 paramsOnes
    (by norm_num [paramsOnes]) (by norm_num [paramsOnes]) (by norm_num [paramsOnes])).2

/-- A successful backward scan returns the greatest index below the
bound satisfying the predicate. -/
theorem lastOutsideAux_some (pred : ℕ → Bool) (n i : ℕ)
    (h : lastOutsideAux pred n = some i) :
    i < n ∧ pred i = true ∧ ∀ k, i < k → k < n → pred k = false := by
  induction n with
  | zero => cases h
  | succ n ih =>
    rw [lastOutsideAux] at h
    by_cases hp : pred n = true
    · rw [if_pos hp] at h
      injection h with h
      subst h
      exact ⟨Nat.lt_succ_self n, hp, fun k hk1 hk2 => absurd hk2 (by omega)⟩
    · rw [if_neg hp] at h
      obtain ⟨h1, h2, h3⟩ := ih h
      refine ⟨Nat.lt_succ_of_lt h1, h2, ?_⟩
      intro k hk1 hk2
      rcases Nat.lt_succ_iff_lt_or_eq.mp hk2 with hk | hk
      · exact h3 k hk1 hk
      · subst hk
        exact Bool.of_not_eq_true hp

/-- A failed backward scan means no index below the bound satisfies the
predicate. -/
theorem lastOutsideAux_none (pred : ℕ → Bool) (n : ℕ)
    (h : lastOutsideAux pred n = none) : ∀ k, k < n → pred k = false := by
  induction n with
  | zero => intro k hk; omega
  | succ n ih =>
    rw [lastOutsideAux] at h
    by_cases hp : pred n = true
    · rw [if_pos hp] at h; cases h
    · rw [if_neg hp] at h
      intro k hk
      rcases Nat.lt_succ_iff_lt_or_eq.mp hk with hk | hk
      · exact ih h k hk
      · subst hk
        exact Bool.of_not_eq_true hp

/-- Counterexample to claim C8: for the record `time = [0, 1]`,
`signal = [0, 10]`, `final = 1` the code reports settling time 1 (the
clamped last sample), yet the sample at that very time lies outside
the ±2 percent band — so the reported time is not "the earliest time
after which every remaining sample is within ±2 percent of final"; no
such time exists in this record. -/
theorem settlingTime_counterexample :
    settlingTime [0, 1] [0, 10] 1 = 1 ∧ ¬ inBand (nth ([(0 : ℝ), 10]) 1) 1 := by
  constructor
  · have hp1 : (decide (nth ([(0 : ℝ), 10]) 1 < 1 * 0.98 ∨
        nth ([(0 : ℝ), 10]) 1 > 1 * 1.02)) = true := by
      rw [decide_eq_true_eq]
      right
      norm_num [nth, nthD]
    have h2 : lastOutsideAux
        (fun i => decide (nth ([(0 : ℝ), 10]) i < 1 * 0.98 ∨
          nth ([(0 : ℝ), 10]) i > 1 * 1.02))
        (([(0 : ℝ), 1]).length) = some 1 := by
      rw [show (([(0 : ℝ), 1]).length) = 2 from rfl, lastOutsideAux, if_pos hp1]
    simp only [settlingTime]
    rw [h2]
    show nth ([(0 : ℝ), 1]) (if 1 + 1 < ([(0 : ℝ), 1]).length then 1 + 1 else 1) = 1
    rw [if_neg (by decide)]
    norm_num [nth, nthD]
  · rw [inBand]
    norm_num [nth, nthD]

/-- Claim C8 (amended): the settling-time scan reports the time of the
sample following the last out-of-band sample (clamped to the last
sample; the first sample's time when nothing is out of band), and —
provided the final sample itself lies within the ±2 percent band —
this is the earliest sample index from which every remaining sample
stays within the band; when the final sample is out of band the code
still reports the last sample's time although the signal never
settles. -/
theorem settlingTime_amended (time signal : List ℝ) (f : ℝ)
    (hlen : signal.length = time.length) (h0 : 0 < time.length)
    (hlast : inBand (nth signal (time.length - 1)) f) :
    ∃ j, j < time.length ∧ settlingTime time signal f = nth time j ∧
      (∀ k, j ≤ k → k < time.length → inBand (nth signal k) f) ∧
      (0 < j → ¬ inBand (nth signal (j - 1)) f) := by
  have hiff : ∀ i, ((decide (nth signal i < f * 0.98 ∨ nth signal i > f * 1.02)) = false)
      ↔ inBand (nth signal i) f := by
    intro i
    rw [decide_eq_false_iff_not, inBand, not_or, not_lt, not_lt]
  cases hcall : lastOutsideAux
      (fun i => decide (nth signal i < f * 0.98 ∨ nth signal i > f * 1.02))
      time.length with
  | none =>
    refine ⟨0, h0, ?_, ?_, by omega⟩
    · simp only [settlingTime]
      rw [hcall]
    · intro k _ hk
      exact (hiff k).mp (lastOutsideAux_none _ _ hcall k hk)
  | some i =>
    obtain ⟨hi, hptrue, hafter⟩ := lastOutsideAux_some _ _ _ hcall
    have hlastf : (decide (nth signal (time.length - 1) < f * 0.98 ∨
        nth signal (time.length - 1) > f * 1.02)) = false := (hiff _).mpr hlast
    have hine : i ≠ time.length - 1 := by
      intro he
      rw [he] at hptrue
      rw [hptrue] at hlastf
      cases hlastf
    have hi1 : i + 1 < time.length := by omega
    refine ⟨i + 1, hi1, ?_, ?_, ?_⟩
    · simp only [settlingTime]
      rw [hcall]
      show nth time (if i + 1 < time.length then i + 1 else i) = nth time (i + 1)
      rw [if_pos hi1]
    · intro k hk1 hk2
      exact (hiff k).mp (hafter k (by omega) hk2)
    · intro _
      rw [Nat.add_sub_cancel]
      intro hband
      rw [← hiff i, hptrue] at hband
      cases hband

/-- Witness for C8 (amended) on `time = [0, 1, 2]`,
`signal = [5, 0.99, 1]`, `final = 1`: the reported settling time is a
sample time from which the signal stays in band, with the preceding
sample out of band. -/
theorem settlingTime_amended_witness :
    ∃ j, j < ([(0 : ℝ), 1, 2]).length ∧
      settlingTime [0, 1, 2] [5, 99 / 100, 1] 1 = nth ([(0 : ℝ), 1, 2]) j ∧
      (∀ k, j ≤ k → k < ([(0 : ℝ), 1, 2]).length →
        inBand (nth ([(5 : ℝ), 99 / 100, 1]) k) 1) ∧
      (0 < j → ¬ inBand (nth ([(5 : ℝ), 99 / 100, 1]) (j - 1)) 1) :=
  settlingTime_amended [0, 1, 2] [5, 99 / 100, 1] 1 rfl (by norm_num)
    (by rw [inBand]; norm_num [nth, nthD])

/-- Claim C9: under Step input the steady-state value is `V` for the
RC-charge, series RLC and both composite-series topologies, `V/R` for
the RL-energize topology (0 when `R ≤ 0`), and `V·R` for the parallel
RLC topology; under any non-Step input it is 0 for every topology. -/
theorem finalValue_spec :
    ∀ p : Params,
      (p.inputType = "Step" →
        computeFinalValue circuitRcCharge p = p.V ∧
        computeFinalValue circuitRlcSeries p = p.V ∧
        computeFinalValue circuitRllcSeries p = p.V ∧
        computeFinalValue circuitRlccSeries p = p.V ∧
        computeFinalValue circuitRlEnergize p = (if p.R > 0 then p.V / p.R else 0) ∧
        computeFinalValue circuitRlcParallel p = p.V * p.R) ∧
      (p.inputType ≠ "Step" → ∀ c : Circuit, computeFinalValue c p = 0) := by
  intro p
  constructor
  · intro hstep
    refine ⟨?_, ?_, ?_, ?_, ?_, ?_⟩ <;>
      simp only [computeFinalValue] <;> rw [if_pos hstep]
    · rw [if_neg (by decide), if_neg (by decide), if_pos (by decide)]
    · rw [if_neg (by decide), if_neg (by decide), if_pos (by decide)]
    · rw [if_neg (by decide), if_neg (by decide), if_pos (by decide)]
    · rw [if_neg (by decide), if_neg (by decide), if_pos (by decide)]
    · rw [if_neg (by decide), if_pos (by decide)]
    · rw [if_pos (by decide)]
  · intro hne c
    rw [computeFinalValue, if_neg hne]

/-- Witness for C9 at `inputType = Step`, `V = 10`, `R = 10` on the
RL-energize topology: the steady-state value is exactly 1. -/
theorem finalValue_spec_witness :
    computeFinalValue circuitRlEnergize
      { paramsOnes with V := 10, R := 10 } = 1 := by
  have h := ((finalValue_spec { paramsOnes with V := 10, R := 10 }).1 rfl).2.2.2.2.1
  rw [h, if_pos (by norm_num)]
  norm_num

/-- A series-RLC-shaped topology whose transfer-function tag matches
none of the six implemented closed forms. -/
def circuitUnknownTag : Circuit :=
  ⟨"2-rlc-series", 2, ["V", "R", "L", "C"], "solveRlcSeries", "V_c / V_in"⟩

/-- A raw parameter object in which every name is a finite number. -/
def rawGood : String → Option JSVal := fun _ => some (.num 1)

/-- Claim C6: an unrecognized transfer-function tag yields the
all-zero 500-point magnitude and phase sweep with the full-length
frequency vector and a complete status, and the overall `solve` result
is still complete with its time-domain and pole/zero results exactly
as computed — the unrecognized tag never causes an error status. -/
theorem unknownTransferTag_spec :
    ∀ (circuit : Circuit) (p : Params),
      circuit.transferFunction ∉ (["1 / (1 + sRC)", "R / (R + sL)",
        "(sRC) / (s^2LC + sRC + 1)", "sL / (s^2LC + sL/R + 1)",
        "1 / (s^2*C*(L1+L2) + s*C*R + 1)",
        "1 / (s^2*L*C_eq + s*R*C_eq + 1)"] : List String) →
      (solveFrequencyResponse circuit p).mag = List.replicate 500 0 ∧
      (solveFrequencyResponse circuit p).phase = List.replicate 500 0 ∧
      (solveFrequencyResponse circuit p).freq.length = 500 ∧
      (solveFrequencyResponse circuit p).status = "complete" ∧
      ∀ (raw : String → Option JSVal) (m : Model),
        models circuit.solver = some m →
        validateParams circuit.params raw = none →
        (solve circuit raw p).status = "complete" ∧
        (solve circuit raw p).mag = List.replicate 500 0 ∧
        (solve circuit raw p).phase = List.replicate 500 0 ∧
        (solve circuit raw p).time =
          (solveODE m.func (resolveInitialState m p) p 0 p.tEnd 1000).time ∧
        (solve circuit raw p).timeDomain =
          m.map (solveODE m.func (resolveInitialState m p) p 0 p.tEnd 1000) p ∧
        (solve circuit raw p).poles = (solveAnalysis circuit p).poles ∧
        (solve circuit raw p).stability = (solveAnalysis circuit p).stability ∧
        (solve circuit raw p).finalValue = computeFinalValue circuit p := by
  set_option maxRecDepth 4000 in
  intro circuit p h
  simp only [List.mem_cons, List.not_mem_nil, or_false, not_or] at h
  obtain ⟨h1, h2, h3, h4, h5, h6⟩ := h
  have hfr : solveFrequencyResponse circuit p =
      { freq := generateFrequencyVector 1 1e6 500,
        mag := List.replicate (generateFrequencyVector 1 1e6 500).length 0,
        phase := List.replicate (generateFrequencyVector 1 1e6 500).length 0,
        status := "complete" } := by
    simp only [solveFrequencyResponse]
    rw [if_neg h1, if_neg h2, if_neg h3, if_neg h4, if_neg h5, if_neg h6]
  have hlen := generateFrequencyVector_length 1 1e6 500
  refine ⟨by rw [hfr]; simp only [hlen], by rw [hfr]; simp only [hlen],
    by rw [hfr]; simp only [hlen], by rw [hfr], ?_⟩
  intro raw m hm hv
  rw [solve_ok circuit raw p m hm hv]
  refine ⟨rfl, ?_, ?_, rfl, rfl, rfl, rfl, rfl⟩
  · show (solveFrequencyResponse circuit p).mag = List.replicate 500 0
    rw [hfr]
    simp only [hlen]
  · show (solveFrequencyResponse circuit p).phase = List.replicate 500 0
    rw [hfr]
    simp only [hlen]

/-- Witness for C6 with the tag `V_c / V_in` (not one of the six
implemented forms) on a registered series RLC model with all-finite
parameters: an all-zero magnitude sweep and a complete overall
status. -/
theorem unknownTransferTag_spec_witness :
    (solveFrequencyResponse circuitUnknownTag paramsOnes).mag = List.replicate 500 0 ∧
    (solve circuitUnknownTag rawGood paramsOnes).status = "complete" := by
  have h := unknownTransferTag_spec circuitUnknownTag paramsOnes (by decide)
  exact ⟨h.1, (h.2.2.2.2 rawGood _ rfl rfl).1⟩

end
